import Mathlib

/-!
Verification development for the metro-now backend websocket server
(`src/server.ts`).

The server keeps three process-wide maps — `subscribedStopIDsByClientID`
(the Subscription Registry), `wsByClientID` (send-handles of open
connections) and `departuresByStopID` (the Departure Cache) — plus a
nullable `intervalId` for the periodic Refresh Timer.  JavaScript `Map`s
are embedded as insertion-ordered association lists; `Map.get` returning
`undefined` is embedded as `Option`; a thrown `TypeError` (from the
non-null assertion `!` applied to a missing entry) is embedded as a `none`
/ `Except.error` outcome of the enclosing operation.

The upstream gateway `fetchApiData`, the zod schemas and
`getParsedDeparture` live outside the analysed sources; they are treated
as external collaborators / modelled from the spec where noted.
-/

/-- Normalized departure record stored in the Departure Cache
(spec §3 Departure: stop identifier, scheduled/predicted time,
route label, headsign). -/
structure Departure where
  stopID : String
  scheduledTime : String
  predictedTime : String
  routeLabel : String
  headsign : String
deriving DecidableEq, Repr

/-- Modelled from the spec: raw departure record produced by the Fetch
Gateway (`fetchApiData` in `src/fetch-metro`, not among the analysed
sources).  Each record is attributable to a stop via an embedded stop
reference (`departure.stop.id` in `server.ts`). -/
structure RawDeparture where
  stopRefId : String
  scheduledAt : String
  predictedAt : String
  routeShortName : String
  headsignText : String
deriving DecidableEq, Repr

/-- Modelled from the spec: `getParsedDeparture` (`src/server/server.utils`,
not among the analysed sources) normalizes a raw record into the cache's
`Departure` shape by field renaming. -/
def getParsedDeparture (r : RawDeparture) : Departure :=
  { stopID := r.stopRefId
    scheduledTime := r.scheduledAt
    predictedTime := r.predictedAt
    routeLabel := r.routeShortName
    headsign := r.headsignText }

/-- Shape of the Fetch Gateway's response consumed by `fetchData`
(`res.departures` in `server.ts`). -/
structure ApiResponse where
  departures : List RawDeparture
deriving DecidableEq, Repr

/-! ### JavaScript `Map`s as insertion-ordered association lists -/

/-- `Map.get`: the (unique) entry with the given key, `none` = `undefined`. -/
def mapGet {α : Type} (m : List (String × α)) (k : String) : Option α :=
  match m with
  | [] => none
  | (k', v) :: rest => if k' == k then some v else mapGet rest k

/-- `Map.set`: overwrite in place when the key is present, append otherwise. -/
def mapSet {α : Type} (m : List (String × α)) (k : String) (v : α) :
    List (String × α) :=
  match m with
  | [] => [(k, v)]
  | (k', v') :: rest =>
      if k' == k then (k, v) :: rest else (k', v') :: mapSet rest k v

/-- `Map.delete`: drop the entry with the given key. -/
def mapDelete {α : Type} (m : List (String × α)) (k : String) :
    List (String × α) :=
  m.filter (fun p => p.1 != k)

/-! ### radash `group` -/

/-- Keys of a list in order of first occurrence (the key order of a
JavaScript object built by insertion, as radash `group` builds it). -/
def firstOccurrences : List String → List String
  | [] => []
  | x :: xs => x :: (firstOccurrences xs).filter (fun y => y != x)

/-- radash `group(res.departures, d => d.stop.id)` followed by
`Object.entries`: one entry per stop id occurring in the list, in first
occurrence order, carrying all departures with that stop id in their
original order. -/
def groupByStop (ds : List RawDeparture) : List (String × List RawDeparture) :=
  (firstOccurrences (ds.map (fun d => d.stopRefId))).map
    (fun k => (k, ds.filter (fun d => d.stopRefId == k)))

/-! ### Server state -/

/-- The process-wide mutable state of `server.ts`.  `pendingOpen` is not a
variable of the source: it records the connections whose upgrade succeeded
but whose websocket `open` callback has not fired yet (Bun runtime
bookkeeping needed to state reachability). -/
structure ServerState where
  intervalId : Option Nat
  subscribedStopIDsByClientID : List (String × List String)
  wsByClientID : List String
  departuresByStopID : List (String × List Departure)
  pendingOpen : List String
deriving DecidableEq, Repr

/-- State at process start: empty maps, no timer. -/
def initialState : ServerState :=
  { intervalId := none
    subscribedStopIDsByClientID := []
    wsByClientID := []
    departuresByStopID := []
    pendingOpen := [] }

/-- `getAllSubscribedStopIDs`: flatten of all registry values
(`Array.from(map.values()).flat()`). -/
def getAllSubscribedStopIDs (s : ServerState) : List String :=
  (s.subscribedStopIDsByClientID.map Prod.snd).flatten

/-! ### `fetchData`

`fetchData` is `async`; its single suspension point is the `await` on
`fetchApiData`.  It is embedded in two phases: `stopIDsToFetch` is the code
before the `await` (computing the set of stops to request), and
`fetchDataResume` is the continuation applied to the gateway's response
(cache update and sends).  `fetchData` is their sequential composition for
runs in which nothing interleaves with the suspension. -/

/-- Stops requested from the gateway: for a targeted refresh, the target's
subscribed stops not yet in the cache (`.get(clientID)!` — `none` embeds
the TypeError thrown when the registry entry is missing); for a broadcast
tick, the union of all subscriptions. -/
def stopIDsToFetch (s : ServerState) (clientID : Option String) :
    Option (List String) :=
  match clientID with
  | some c =>
      (mapGet s.subscribedStopIDsByClientID c).map
        (fun stops => stops.filter
          (fun stopID => !(mapGet s.departuresByStopID stopID).isSome))
  | none => some (getAllSubscribedStopIDs s)

/-- One step of the `forEach` merging grouped departures into the cache:
`departuresByStopID.set(stopID, departures.map(getParsedDeparture))`. -/
def mergeStep (cache : List (String × List Departure))
    (p : String × List RawDeparture) : List (String × List Departure) :=
  mapSet cache p.1 (p.2.map getParsedDeparture)

/-- The cache-update block of `fetchData`: group the returned departures by
stop id and overwrite each grouped stop's cache entry. -/
def mergeDepartures (cache : List (String × List Departure))
    (ds : List RawDeparture) : List (String × List Departure) :=
  (groupByStop ds).foldl mergeStep cache

/-- The object built for one client before serialization:
`stopIDs.map(stopID => [stopID, departuresByStopID.get(stopID)])` — each
subscribed stop paired with its cache value, `none` = `undefined`.  The
outer `none` embeds the TypeError from
`subscribedStopIDsByClientID.get(clientID)!` when the entry is missing. -/
def dataForClientID (s : ServerState) (clientID : String) :
    Option (List (String × Option (List Departure))) :=
  (mapGet s.subscribedStopIDsByClientID clientID).map
    (fun stops => stops.map
      (fun stopID => (stopID, mapGet s.departuresByStopID stopID)))

/-- `JSON.stringify` on an object drops every member whose value is
`undefined`; the serialized payload therefore consists of exactly the
members with a present value, in object order. -/
def jsonStringifyMembers
    (entries : List (String × Option (List Departure))) :
    List (String × List Departure) :=
  entries.filterMap (fun p => p.2.map (fun ds => (p.1, ds)))

/-- `getStringifiedDataForClientID`: the serialized members of the payload
frame sent to one client. -/
def getStringifiedDataForClientID (s : ServerState) (clientID : String) :
    Option (List (String × List Departure)) :=
  (dataForClientID s clientID).map jsonStringifyMembers

/-- A websocket send: target client id and the serialized payload members. -/
abbrev Send := String × List (String × List Departure)

/-- The state after `fetchData`'s cache-update block
(`if (res.departures.length) { ... }`): the Departure Cache is overwritten
with the grouped returned departures; nothing happens on an empty
response. -/
def cacheAfterResume (s : ServerState) (res : ApiResponse) : ServerState :=
  if res.departures.isEmpty then s
  else { s with departuresByStopID :=
                  mergeDepartures s.departuresByStopID res.departures }

/-- Continuation of `fetchData` after the gateway responds: early return on
an empty broadcast response, the cache-update block, then the send(s).
`none` embeds a thrown TypeError: the targeted send dereferences
`wsByClientID.get(clientID)!` and
`subscribedStopIDsByClientID.get(clientID)!`, which are `undefined` after
the client closed. -/
def fetchDataResume (s : ServerState) (clientID : Option String)
    (res : ApiResponse) : Option (ServerState × List Send) :=
  if res.departures.isEmpty && clientID.isNone then some (s, [])
  else
    match clientID with
    | some c =>
        if (cacheAfterResume s res).wsByClientID.contains c then
          (getStringifiedDataForClientID (cacheAfterResume s res) c).map
            (fun payload => (cacheAfterResume s res, [(c, payload)]))
        else none
    | none =>
        ((cacheAfterResume s res).wsByClientID.mapM
          (fun c => (getStringifiedDataForClientID (cacheAfterResume s res) c).map
            (fun payload => (c, payload)))).map
          (fun sends => (cacheAfterResume s res, sends))

/-- Whole `fetchData` run with no interleaving at the suspension point.
The gateway is a parameter returning `Except` (a rejected promise is
`.error`; `fetchData` has no try/catch, so a gateway error propagates to
the caller unchanged).  The second component records the gateway
invocations performed (argument of each call). -/
def fetchData (gateway : List String → Except String ApiResponse)
    (s : ServerState) (clientID : Option String) :
    Except String (ServerState × List Send) × List (List String) :=
  match stopIDsToFetch s clientID with
  | none => (.error "TypeError: cannot read subscription of missing client", [])
  | some ids =>
      match gateway ids with
      | .error e => (.error e, [ids])
      | .ok res =>
          match fetchDataResume s clientID res with
          | none => (.error "TypeError: cannot send to missing client", [ids])
          | some out => (.ok out, [ids])

/-! ### Connection lifecycle handlers -/

/-- Classification of the `stop-ids` handshake header after `JSON.parse`
and `StopIDsSchema.safeParse` (`src/schemas` is not among the analysed
sources; the schema outcome is taken as input).  `.stopList` is the
success case carrying the parsed stop identifiers. -/
inductive HeaderInput where
  | missing
  | invalidJson (err : String)
  | schemaViolation (err : String)
  | stopList (stops : List String)
deriving DecidableEq, Repr

/-- Modelled from the spec: `StopIDsSchema` (in `src/schemas`, not among
the analysed sources) accepts a non-empty JSON array of non-empty stop
identifier strings (spec §6: "non-empty, each a non-empty string"). -/
def validStopIDs (stops : List String) : Prop :=
  stops ≠ [] ∧ ∀ st ∈ stops, st ≠ ""

/-- A `.stopList` header is one the schema accepted. -/
def headerOk : HeaderInput → Prop
  | .stopList stops => validStopIDs stops
  | _ => True

/-- The HTTP `fetch` handler of `Bun.serve`: validate the header, register
the initial subscription under a fresh client id, then attempt the
websocket upgrade.  Second component: the textual error response (`none`
when the upgrade was accepted).  Note the registry entry is written
*before* `server.upgrade` and is not removed when the upgrade fails. -/
def fetchHandler (s : ServerState) (h : HeaderInput) (freshId : String)
    (upgradeOk : Bool) : ServerState × Option String :=
  match h with
  | .missing => (s, some "stop-ids header is missing")
  | .invalidJson e => (s, some e)
  | .schemaViolation e => (s, some e)
  | .stopList stops =>
      let s' := { s with subscribedStopIDsByClientID :=
                    mapSet s.subscribedStopIDsByClientID freshId stops }
      if upgradeOk then
        ({ s' with pendingOpen := freshId :: s'.pendingOpen }, none)
      else (s', some "Failed to upgrade connection")

/-- The websocket `open` callback: store the send-handle, (fire the
targeted `fetchData(clientID)` — its effects are separate transitions),
and start the interval timer if none is running.  `newIntervalId` is the
numeric handle `setInterval` would return. -/
def openHandler (s : ServerState) (clientID : String) (newIntervalId : Nat) :
    ServerState :=
  let s1 := { s with
    wsByClientID := if s.wsByClientID.contains clientID then s.wsByClientID
                    else s.wsByClientID ++ [clientID]
    pendingOpen := s.pendingOpen.filter (fun c => c != clientID) }
  if s1.intervalId.isSome then s1
  else { s1 with intervalId := some newIntervalId }

/-- Classification of an inbound websocket frame after the `typeof` check,
`JSON.parse` and `SubscribeSchema.safeParse` (`src/schemas` is not among
the analysed sources; the spec §6 shape is a JSON object with a
`subscribe` array of stop identifier strings).  `.subscribeList` is the
success case carrying `res.data.subscribe`. -/
inductive ClientMessage where
  | nonText
  | invalidJson (err : String)
  | schemaViolation (err : String)
  | subscribeList (stops : List String)
deriving DecidableEq, Repr

/-- The websocket `message` callback.  Outputs: new state, the
`ws.close(code, reason)` it issued (if any), the gateway calls it made,
and the sends it performed — a well-formed subscribe message only
overwrites the registry entry, closing nothing, fetching nothing,
sending nothing. -/
def messageHandler (s : ServerState) (clientID : String) (m : ClientMessage) :
    ServerState × Option (Nat × String) × List (List String) × List Send :=
  match m with
  | .nonText => (s, some (1011, "Message has to be string"), [], [])
  | .invalidJson e => (s, some (1011, e), [], [])
  | .schemaViolation e => (s, some (1011, e), [], [])
  | .subscribeList stops =>
      ({ s with subscribedStopIDsByClientID :=
            mapSet s.subscribedStopIDsByClientID clientID stops },
       none, [], [])

/-- The websocket `close` callback: delete the send-handle and the registry
entry; if no subscribed clients remain and a timer is running, clear it. -/
def closeHandler (s : ServerState) (clientID : String) : ServerState :=
  let s1 := { s with
    wsByClientID := s.wsByClientID.filter (fun c => c != clientID)
    subscribedStopIDsByClientID :=
      mapDelete s.subscribedStopIDsByClientID clientID }
  if s1.subscribedStopIDsByClientID.length > 0 || s1.intervalId.isNone then s1
  else { s1 with intervalId := none }

/-! ### Reachable states

Events of the Bun runtime, with their scheduling preconditions: `open`
fires once per successfully upgraded connection, `message`/`close` only
for connections whose handle is stored, fresh uuids never collide.  A
completed `fetchData` (from a tick or an open) only rewrites the Departure
Cache, recorded by the `fetchEv` transition with an arbitrary gateway
response. -/

/-- One event-handler execution. -/
inductive Step : ServerState → ServerState → Prop where
  | handshakeEv (s : ServerState) (h : HeaderInput) (freshId : String)
      (upgradeOk : Bool) (hok : headerOk h)
      (hfresh : (mapGet s.subscribedStopIDsByClientID freshId).isNone
        ∧ freshId ∉ s.wsByClientID ∧ freshId ∉ s.pendingOpen) :
      Step s (fetchHandler s h freshId upgradeOk).1
  | openEv (s : ServerState) (clientID : String) (newIntervalId : Nat)
      (hpend : clientID ∈ s.pendingOpen) :
      Step s (openHandler s clientID newIntervalId)
  | messageEv (s : ServerState) (clientID : String) (m : ClientMessage)
      (hws : clientID ∈ s.wsByClientID) :
      Step s (messageHandler s clientID m).1
  | closeEv (s : ServerState) (clientID : String)
      (hws : clientID ∈ s.wsByClientID) :
      Step s (closeHandler s clientID)
  | fetchEv (s : ServerState) (clientID : Option String) (res : ApiResponse)
      (s' : ServerState) (sends : List Send)
      (hres : fetchDataResume s clientID res = some (s', sends)) :
      Step s s'

/-- States reachable from process start. -/
inductive Reachable : ServerState → Prop where
  | init : Reachable initialState
  | step {s s' : ServerState} : Reachable s → Step s s' → Reachable s'

/-! ### Concrete departures, states and gateways used in the analyses -/

def rawDepA : RawDeparture := ⟨"A", "10:00:00", "10:01:00", "C", "Haje"⟩

def rawDepB : RawDeparture := ⟨"B", "10:05:00", "10:06:00", "B", "Zlicin"⟩

/-- One open client `"c1"` subscribed to the never-fetched stop `"A"`, with
the Refresh Timer running: the state right after `"c1"` connected, before
any fetch completed. -/
def stateOneClient : ServerState :=
  { intervalId := some 1
    subscribedStopIDsByClientID := [("c1", ["A"])]
    wsByClientID := ["c1"]
    departuresByStopID := []
    pendingOpen := [] }

/-- Two open clients both subscribed to stop `"A"`, which is already
cached: a targeted refresh for `"c2"` computes an empty stop set. -/
def stateAllCached : ServerState :=
  { intervalId := some 1
    subscribedStopIDsByClientID := [("c1", ["A"]), ("c2", ["A"])]
    wsByClientID := ["c1", "c2"]
    departuresByStopID := [("A", [getParsedDeparture rawDepA])]
    pendingOpen := [] }

/-- One open client subscribed to `"A"` and `"B"`, nothing cached. -/
def stateTwoStops : ServerState :=
  { intervalId := some 1
    subscribedStopIDsByClientID := [("c1", ["A", "B"])]
    wsByClientID := ["c1"]
    departuresByStopID := []
    pendingOpen := [] }

/-- `stateTwoStops` after a fetch returned data for `"A"` only. -/
def stateAfterA : ServerState :=
  { stateTwoStops with
    departuresByStopID := [("A", [getParsedDeparture rawDepA])] }

/-- `stateTwoStops` after fetches returned data for `"A"` and `"B"`. -/
def stateAfterAB : ServerState :=
  { stateTwoStops with
    departuresByStopID := [("A", [getParsedDeparture rawDepA]),
                           ("B", [getParsedDeparture rawDepB])] }

/-- `stateOneClient` after a fetch returned data for `"B"` only. -/
def stateAfterB : ServerState :=
  { stateOneClient with
    departuresByStopID := [("B", [getParsedDeparture rawDepB])] }

/-- Deterministic gateway whose answer depends on the requested set: asked
for `["A","B"]` it has data only for `"A"`; asked for `["B"]` alone it has
data for `"B"`. -/
def gTwoPhase : List String → Except String ApiResponse :=
  fun ids =>
    if ids = ["A", "B"] then .ok ⟨[rawDepA]⟩
    else if ids = ["B"] then .ok ⟨[rawDepB]⟩
    else .ok ⟨[]⟩

/-- Gateway that always answers with no departures. -/
def gNoData : List String → Except String ApiResponse := fun _ => .ok ⟨[]⟩

/-- Per-stop behaviour with data for `"A"` only. -/
def perStopW : String → List RawDeparture :=
  fun st => if st = "A" then [rawDepA] else []

/-- A per-stop deterministic gateway: its response to a set of stops is the
concatenation of fixed per-stop responses. -/
def pointwiseGateway (perStop : String → List RawDeparture) :
    List String → Except String ApiResponse :=
  fun ids => .ok ⟨(ids.map perStop).flatten⟩

/-- Trace state: `"c1"` handshakes with stop list `["A"]`, upgrade ok. -/
def st1 : ServerState :=
  (fetchHandler initialState (.stopList ["A"]) "c1" true).1

/-- Trace state: `"c1"`'s open callback fires, timer handle 1 starts. -/
def st2 : ServerState := openHandler st1 "c1" 1

/-- Trace state: `"c2"` handshakes with `["B"]` but the upgrade fails. -/
def st3 : ServerState := (fetchHandler st2 (.stopList ["B"]) "c2" false).1

/-- Trace state: `"c1"` closes; the leaked `"c2"` registry entry keeps the
close handler from clearing the timer. -/
def timerLeakState : ServerState := closeHandler st3 "c1"

/-- State after a single handshake whose upgrade failed. -/
def leakedState : ServerState :=
  (fetchHandler initialState (.stopList ["A"]) "c1" false).1

/-! ### Association-list lemmas -/

theorem mapGet_mapSet {α : Type} (m : List (String × α)) (k k' : String)
    (v : α) :
    mapGet (mapSet m k v) k' = if k' = k then some v else mapGet m k' := by
  induction m with
  | nil =>
      by_cases h : k' = k
      · subst h
        simp [mapGet, mapSet]
      · have h' : (k == k') = false := by
          simp only [beq_eq_false_iff_ne, ne_eq]
          exact fun hh => h hh.symm
        simp [mapGet, mapSet, h, h']
  | cons p rest ih =>
      obtain ⟨k₀, v₀⟩ := p
      by_cases h0 : k₀ = k
      · subst h0
        by_cases h : k' = k₀
        · subst h
          simp [mapGet, mapSet]
        · have h' : ¬k₀ = k' := fun hh => h hh.symm
          simp [mapGet, mapSet, beq_iff_eq, h, h']
      · have h0' : (k₀ == k) = false := by
          simp [beq_iff_eq, h0]
        by_cases h : k' = k₀
        · subst h
          simp [mapGet, mapSet, h0', beq_iff_eq, h0]
        · have h' : (k₀ == k') = false := by
            simp only [beq_eq_false_iff_ne, ne_eq]
            exact fun hh => h hh.symm
          simpa [mapGet, mapSet, h0', h'] using ih

theorem mapSet_ne_nil {α : Type} (m : List (String × α)) (k : String)
    (v : α) : mapSet m k v ≠ [] := by
  cases m with
  | nil => simp [mapSet]
  | cons p rest =>
      obtain ⟨k₀, v₀⟩ := p
      by_cases h : k₀ = k <;> simp [mapSet, h]

theorem mapGet_mapDelete {α : Type} (m : List (String × α)) (k k' : String) :
    mapGet (mapDelete m k) k' = if k' = k then none else mapGet m k' := by
  induction m with
  | nil => by_cases h : k' = k <;> simp [mapGet, mapDelete, h]
  | cons p rest ih =>
      obtain ⟨k₀, v₀⟩ := p
      by_cases h0 : k₀ = k
      · subst h0
        have hbne : (k₀ != k₀) = false := by simp
        by_cases h : k' = k₀
        · subst h
          simpa [mapDelete, hbne] using ih
        · have h' : (k₀ == k') = false := by
            simp only [beq_eq_false_iff_ne, ne_eq]
            exact fun hh => h hh.symm
          simpa [mapGet, mapDelete, hbne, h, h'] using ih
      · have h0' : (k₀ != k) = true := by simp [bne_iff_ne, h0]
        by_cases h : k' = k₀
        · subst h
          simp [mapGet, mapDelete, h0', beq_iff_eq, h0]
        · have h' : (k₀ == k') = false := by
            simp only [beq_eq_false_iff_ne, ne_eq]
            exact fun hh => h hh.symm
          simpa [mapGet, mapDelete, h0', h'] using ih

theorem mapGet_isSome_iff {α : Type} (m : List (String × α)) (k : String) :
    (mapGet m k).isSome ↔ k ∈ m.map Prod.fst := by
  induction m with
  | nil => simp [mapGet]
  | cons p rest ih =>
      obtain ⟨k₀, v₀⟩ := p
      by_cases h : k₀ = k
      · subst h
        simp [mapGet]
      · have h' : (k₀ == k) = false := by simp [beq_iff_eq, h]
        simpa [mapGet, h', Ne.symm h] using ih

/-! ### `firstOccurrences` and `groupByStop` lemmas -/

theorem mem_firstOccurrences {k : String} {l : List String} :
    k ∈ firstOccurrences l ↔ k ∈ l := by
  induction l with
  | nil => simp [firstOccurrences]
  | cons x xs ih =>
      by_cases h : k = x
      · subst h
        simp [firstOccurrences]
      · simp [firstOccurrences, List.mem_filter, h, bne_iff_ne, ih]

theorem groupByStop_keys (ds : List RawDeparture) :
    (groupByStop ds).map Prod.fst
      = firstOccurrences (ds.map (fun d => d.stopRefId)) := by
  simp [groupByStop, List.map_map, Function.comp_def]

theorem mem_groupByStop_keys {k : String} {ds : List RawDeparture} :
    k ∈ (groupByStop ds).map Prod.fst
      ↔ ∃ d ∈ ds, d.stopRefId = k := by
  rw [groupByStop_keys, mem_firstOccurrences]
  simp [List.mem_map]

theorem groupByStop_snd {p : String × List RawDeparture}
    {ds : List RawDeparture} (hp : p ∈ groupByStop ds) :
    p.2 = ds.filter (fun d => d.stopRefId == p.1) := by
  simp only [groupByStop, List.mem_map] at hp
  obtain ⟨k, _, hk⟩ := hp
  subst hk
  rfl

theorem groupByStop_snd_ne_nil {p : String × List RawDeparture}
    {ds : List RawDeparture} (hp : p ∈ groupByStop ds) : p.2 ≠ [] := by
  have hsnd := groupByStop_snd hp
  have hkey : p.1 ∈ (groupByStop ds).map Prod.fst :=
    List.mem_map.mpr ⟨p, hp, rfl⟩
  rw [mem_groupByStop_keys] at hkey
  obtain ⟨d, hd, hdk⟩ := hkey
  rw [hsnd]
  intro hnil
  rw [List.filter_eq_nil_iff] at hnil
  exact hnil d hd (by simp [beq_iff_eq, hdk])

/-! ### `foldl mergeStep` lemmas -/

theorem mapGet_foldl_mergeStep_not_mem
    (l : List (String × List RawDeparture))
    (cache : List (String × List Departure)) (k : String)
    (h : k ∉ l.map Prod.fst) :
    mapGet (l.foldl mergeStep cache) k = mapGet cache k := by
  induction l generalizing cache with
  | nil => rfl
  | cons p rest ih =>
      simp only [List.map_cons, List.mem_cons, not_or] at h
      rw [List.foldl_cons, ih _ h.2, mergeStep, mapGet_mapSet,
        if_neg (fun hh => h.1 hh)]

theorem mapGet_foldl_mergeStep_mem
    (l : List (String × List RawDeparture))
    (cache : List (String × List Departure)) (k : String)
    (h : k ∈ l.map Prod.fst) :
    ∃ p, p ∈ l ∧ p.1 = k
      ∧ mapGet (l.foldl mergeStep cache) k
          = some (p.2.map getParsedDeparture) := by
  induction l generalizing cache with
  | nil => simp at h
  | cons p rest ih =>
      by_cases hrest : k ∈ rest.map Prod.fst
      · obtain ⟨q, hq, hqk, hget⟩ := ih (mergeStep cache p) hrest
        exact ⟨q, List.mem_cons_of_mem _ hq, hqk, hget⟩
      · simp only [List.map_cons, List.mem_cons] at h
        have hk : p.1 = k := (h.resolve_right hrest).symm
        refine ⟨p, List.mem_cons_self _ _, hk, ?_⟩
        rw [List.foldl_cons, mapGet_foldl_mergeStep_not_mem _ _ _ hrest,
          mergeStep, mapGet_mapSet, if_pos hk.symm]

theorem mapGet_mergeDepartures_not_returned
    (cache : List (String × List Departure)) (ds : List RawDeparture)
    (k : String) (h : ds.filter (fun d => d.stopRefId == k) = []) :
    mapGet (mergeDepartures cache ds) k = mapGet cache k := by
  apply mapGet_foldl_mergeStep_not_mem
  rw [mem_groupByStop_keys]
  rintro ⟨d, hd, hdk⟩
  rw [List.filter_eq_nil_iff] at h
  exact h d hd (by simp [beq_iff_eq, hdk])

theorem mapGet_mergeDepartures_none
    {cache : List (String × List Departure)} {ds : List RawDeparture}
    {k : String} (h : mapGet (mergeDepartures cache ds) k = none) :
    mapGet cache k = none ∧ ds.filter (fun d => d.stopRefId == k) = [] := by
  by_cases hmem : k ∈ (groupByStop ds).map Prod.fst
  · obtain ⟨p, _, _, hget⟩ := mapGet_foldl_mergeStep_mem _ cache k hmem
    rw [mergeDepartures] at h
    rw [h] at hget
    cases hget
  · have hunch := mapGet_foldl_mergeStep_not_mem (groupByStop ds) cache k hmem
    rw [mergeDepartures] at h
    refine ⟨hunch ▸ h, ?_⟩
    rw [List.filter_eq_nil_iff]
    intro d hd hdk
    rw [beq_iff_eq] at hdk
    exact hmem (mem_groupByStop_keys.mpr ⟨d, hd, hdk⟩)

theorem mapGet_mergeDepartures_ne_some_nil
    (cache : List (String × List Departure)) (ds : List RawDeparture)
    (k : String) (h : mapGet (mergeDepartures cache ds) k = some []) :
    mapGet cache k = some [] := by
  by_cases hmem : k ∈ (groupByStop ds).map Prod.fst
  · obtain ⟨p, hp, _, hget⟩ := mapGet_foldl_mergeStep_mem _ cache k hmem
    rw [mergeDepartures] at h
    rw [h] at hget
    have hne := groupByStop_snd_ne_nil hp
    have : p.2.map getParsedDeparture = [] := by
      injection hget.symm
    exact absurd (List.map_eq_nil_iff.mp this) hne
  · have hunch := mapGet_foldl_mergeStep_not_mem (groupByStop ds) cache k hmem
    rw [mergeDepartures] at h
    exact hunch ▸ h

/-! ### Reachable-state invariant -/

/-- Structural facts holding at every reachable state: a pending (upgraded,
not yet opened) connection is not yet stored in `wsByClientID`; pending and
open connections always have a Subscription Registry entry; the Refresh
Timer only runs while the registry is non-empty. -/
def ServerInv (s : ServerState) : Prop :=
  (∀ c ∈ s.pendingOpen, c ∉ s.wsByClientID)
  ∧ (∀ c ∈ s.pendingOpen, (mapGet s.subscribedStopIDsByClientID c).isSome)
  ∧ (∀ c ∈ s.wsByClientID, (mapGet s.subscribedStopIDsByClientID c).isSome)
  ∧ (s.intervalId.isSome → s.subscribedStopIDsByClientID ≠ [])

theorem serverInv_initialState : ServerInv initialState := by
  refine ⟨?_, ?_, ?_, ?_⟩ <;> simp [initialState, ServerInv]

/-! Normal forms of the handlers, used by the invariant proofs. -/

theorem fetchHandler_stopList_true (s : ServerState) (stops : List String)
    (freshId : String) :
    (fetchHandler s (.stopList stops) freshId true).1
      = { s with
          subscribedStopIDsByClientID :=
            mapSet s.subscribedStopIDsByClientID freshId stops
          pendingOpen := freshId :: s.pendingOpen } := rfl

theorem fetchHandler_stopList_false (s : ServerState) (stops : List String)
    (freshId : String) :
    (fetchHandler s (.stopList stops) freshId false).1
      = { s with
          subscribedStopIDsByClientID :=
            mapSet s.subscribedStopIDsByClientID freshId stops } := rfl

theorem openHandler_state (s : ServerState) (clientID : String) (n : Nat) :
    openHandler s clientID n
      = { s with
          wsByClientID := if s.wsByClientID.contains clientID
            then s.wsByClientID else s.wsByClientID ++ [clientID]
          pendingOpen := s.pendingOpen.filter (fun c => c != clientID)
          intervalId := if s.intervalId.isSome then s.intervalId
                        else some n } := by
  by_cases h : s.intervalId.isSome <;> simp [openHandler, h]

theorem messageHandler_subscribe_state (s : ServerState) (clientID : String)
    (stops : List String) :
    (messageHandler s clientID (.subscribeList stops)).1
      = { s with
          subscribedStopIDsByClientID :=
            mapSet s.subscribedStopIDsByClientID clientID stops } := rfl

theorem closeHandler_state (s : ServerState) (clientID : String) :
    closeHandler s clientID
      = { s with
          wsByClientID := s.wsByClientID.filter (fun c => c != clientID)
          subscribedStopIDsByClientID :=
            mapDelete s.subscribedStopIDsByClientID clientID
          intervalId :=
            if 0 < (mapDelete s.subscribedStopIDsByClientID clientID).length
            then s.intervalId else none } := by
  by_cases hlen : 0 < (mapDelete s.subscribedStopIDsByClientID clientID).length
  · simp [closeHandler, hlen]
  · by_cases hnone : s.intervalId = none
    · simp [closeHandler, hlen, hnone]
    · simp [closeHandler, hlen, hnone, Option.isNone_iff_eq_none]

theorem cacheAfterResume_frame (s : ServerState) (res : ApiResponse) :
    (cacheAfterResume s res).subscribedStopIDsByClientID
        = s.subscribedStopIDsByClientID
    ∧ (cacheAfterResume s res).wsByClientID = s.wsByClientID
    ∧ (cacheAfterResume s res).pendingOpen = s.pendingOpen
    ∧ (cacheAfterResume s res).intervalId = s.intervalId := by
  by_cases h : res.departures.isEmpty <;> simp [cacheAfterResume, h]

theorem fetchDataResume_state {s : ServerState} {clientID : Option String}
    {res : ApiResponse} {s' : ServerState} {sends : List Send}
    (h : fetchDataResume s clientID res = some (s', sends)) :
    s' = s ∨ s' = cacheAfterResume s res := by
  rw [fetchDataResume.eq_def] at h
  split at h
  · cases h
    exact Or.inl rfl
  · cases clientID with
    | some c =>
        simp only at h
        split at h
        · rw [Option.map_eq_some'] at h
          obtain ⟨payload, _, hout⟩ := h
          exact Or.inr (congrArg Prod.fst hout).symm
        · cases h
    | none =>
        simp only at h
        rw [Option.map_eq_some'] at h
        obtain ⟨sends', _, hout⟩ := h
        exact Or.inr (congrArg Prod.fst hout).symm

theorem ne_nil_of_mapGet_isSome {α : Type} {m : List (String × α)}
    {k : String} (h : (mapGet m k).isSome) : m ≠ [] := by
  intro hnil
  rw [hnil] at h
  simp [mapGet] at h

theorem serverInv_step {s s' : ServerState} (hs : ServerInv s)
    (hstep : Step s s') : ServerInv s' := by
  obtain ⟨hpw, hpr, hwr, hti⟩ := hs
  cases hstep with
  | handshakeEv h freshId upgradeOk hok hfresh =>
      cases h with
      | missing => exact ⟨hpw, hpr, hwr, hti⟩
      | invalidJson e => exact ⟨hpw, hpr, hwr, hti⟩
      | schemaViolation e => exact ⟨hpw, hpr, hwr, hti⟩
      | stopList stops =>
          obtain ⟨hf1, hf2, hf3⟩ := hfresh
          cases upgradeOk with
          | true =>
              rw [fetchHandler_stopList_true]
              refine ⟨?_, ?_, ?_, ?_⟩
              · intro c hc
                dsimp only at hc ⊢
                rcases List.mem_cons.mp hc with hceq | hcmem
                · exact hceq ▸ hf2
                · exact hpw c hcmem
              · intro c hc
                dsimp only at hc ⊢
                rw [mapGet_mapSet]
                rcases List.mem_cons.mp hc with hceq | hcmem
                · simp [hceq]
                · by_cases hck : c = freshId
                  · simp [hck]
                  · simpa [hck] using hpr c hcmem
              · intro c hc
                dsimp only at hc ⊢
                rw [mapGet_mapSet]
                by_cases hck : c = freshId
                · simp [hck]
                · simpa [hck] using hwr c hc
              · intro _
                exact mapSet_ne_nil _ _ _
          | false =>
              rw [fetchHandler_stopList_false]
              refine ⟨?_, ?_, ?_, ?_⟩
              · intro c hc
                dsimp only at hc ⊢
                exact hpw c hc
              · intro c hc
                dsimp only at hc ⊢
                rw [mapGet_mapSet]
                by_cases hck : c = freshId
                · simp [hck]
                · simpa [hck] using hpr c hc
              · intro c hc
                dsimp only at hc ⊢
                rw [mapGet_mapSet]
                by_cases hck : c = freshId
                · simp [hck]
                · simpa [hck] using hwr c hc
              · intro _
                exact mapSet_ne_nil _ _ _
  | openEv clientID newIntervalId hpend =>
      rw [openHandler_state]
      refine ⟨?_, ?_, ?_, ?_⟩
      · intro c hc
        dsimp only at hc ⊢
        rw [List.mem_filter, bne_iff_ne] at hc
        obtain ⟨hcp, hcne⟩ := hc
        by_cases hcon : s.wsByClientID.contains clientID
        · rw [if_pos hcon]
          exact hpw c hcp
        · rw [if_neg hcon]
          rw [List.mem_append, List.mem_singleton]
          rintro (hmem | hceq)
          · exact hpw c hcp hmem
          · exact hcne hceq
      · intro c hc
        dsimp only at hc ⊢
        rw [List.mem_filter] at hc
        exact hpr c hc.1
      · intro c hc
        dsimp only at hc ⊢
        by_cases hcon : s.wsByClientID.contains clientID
        · rw [if_pos hcon] at hc
          exact hwr c hc
        · rw [if_neg hcon] at hc
          rcases List.mem_append.mp hc with hmem | hceq
          · exact hwr c hmem
          · rw [List.mem_singleton] at hceq
            exact hceq ▸ hpr clientID hpend
      · intro _
        dsimp only
        exact ne_nil_of_mapGet_isSome (hpr clientID hpend)
  | messageEv clientID m hws =>
      cases m with
      | nonText => exact ⟨hpw, hpr, hwr, hti⟩
      | invalidJson e => exact ⟨hpw, hpr, hwr, hti⟩
      | schemaViolation e => exact ⟨hpw, hpr, hwr, hti⟩
      | subscribeList stops =>
          rw [messageHandler_subscribe_state]
          refine ⟨?_, ?_, ?_, ?_⟩
          · intro c hc
            dsimp only at hc ⊢
            exact hpw c hc
          · intro c hc
            dsimp only at hc ⊢
            rw [mapGet_mapSet]
            by_cases hck : c = clientID
            · simp [hck]
            · simpa [hck] using hpr c hc
          · intro c hc
            dsimp only at hc ⊢
            rw [mapGet_mapSet]
            by_cases hck : c = clientID
            · simp [hck]
            · simpa [hck] using hwr c hc
          · intro _
            exact mapSet_ne_nil _ _ _
  | closeEv clientID hws =>
      have key : ∀ c, c ≠ clientID →
          (mapGet s.subscribedStopIDsByClientID c).isSome →
          (mapGet (mapDelete s.subscribedStopIDsByClientID clientID)
            c).isSome := by
        intro c hne hsome
        rw [mapGet_mapDelete, if_neg hne]
        exact hsome
      rw [closeHandler_state]
      refine ⟨?_, ?_, ?_, ?_⟩
      · intro c hc
        dsimp only at hc ⊢
        rw [List.mem_filter, bne_iff_ne]
        intro hcontra
        exact hpw c hc hcontra.1
      · intro c hc
        dsimp only at hc ⊢
        refine key c ?_ (hpr c hc)
        intro hceq
        exact hpw c hc (hceq ▸ hws)
      · intro c hc
        dsimp only at hc ⊢
        rw [List.mem_filter, bne_iff_ne] at hc
        exact key c hc.2 (hwr c hc.1)
      · intro hsome
        dsimp only at hsome ⊢
        by_cases hlen :
            0 < (mapDelete s.subscribedStopIDsByClientID clientID).length
        · exact List.ne_nil_of_length_pos hlen
        · rw [if_neg hlen] at hsome
          simp at hsome
  | fetchEv clientID res sB sends hres =>
      rcases fetchDataResume_state hres with hss | hss
      · subst hss
        exact ⟨hpw, hpr, hwr, hti⟩
      · obtain ⟨f1, f2, f3, f4⟩ := cacheAfterResume_frame s res
        subst hss
        refine ⟨?_, ?_, ?_, ?_⟩
        · rw [f3, f2]
          exact hpw
        · rw [f3, f1]
          exact hpr
        · rw [f2, f1]
          exact hwr
        · rw [f4, f1]
          exact hti

/-- Every reachable state satisfies the invariant. -/
theorem reachable_inv {s : ServerState} (h : Reachable s) : ServerInv s := by
  induction h with
  | init => exact serverInv_initialState
  | step _ hstep ih => exact serverInv_step ih hstep

example :
    mapGet (mapSet ([] : List (String × Nat)) "a" 3) "a" = some 3 := by decide

example :
    groupByStop [⟨"A", "1", "1", "r", "h"⟩, ⟨"B", "2", "2", "r", "h"⟩,
                 ⟨"A", "3", "3", "r", "h"⟩]
      = [("A", [⟨"A", "1", "1", "r", "h"⟩, ⟨"A", "3", "3", "r", "h"⟩]),
         ("B", [⟨"B", "2", "2", "r", "h"⟩])] := by decide

/-! ### Payload-membership and `fetchData` elimination lemmas -/

theorem mem_jsonStringifyMembers
    {entries : List (String × Option (List Departure))} {st : String}
    {ds : List Departure} :
    (st, ds) ∈ jsonStringifyMembers entries ↔ (st, some ds) ∈ entries := by
  rw [jsonStringifyMembers, List.mem_filterMap]
  constructor
  · rintro ⟨⟨p1, p2⟩, hp, hmap⟩
    rw [Option.map_eq_some'] at hmap
    obtain ⟨l, hl, heq⟩ := hmap
    rw [Prod.mk.injEq] at heq
    obtain ⟨h1, h2⟩ := heq
    dsimp only at h1 hl
    subst h1
    subst h2
    rw [hl] at hp
    exact hp
  · intro hmem
    exact ⟨(st, some ds), hmem, rfl⟩

theorem mem_map_pair {stops : List String}
    {f : String → Option (List Departure)} {st : String}
    {v : Option (List Departure)} :
    (st, v) ∈ stops.map (fun x => (x, f x)) ↔ st ∈ stops ∧ v = f st := by
  rw [List.mem_map]
  constructor
  · rintro ⟨x, hx, heq⟩
    rw [Prod.mk.injEq] at heq
    obtain ⟨h1, h2⟩ := heq
    subst h1
    exact ⟨hx, h2.symm⟩
  · rintro ⟨hst, hv⟩
    exact ⟨st, hst, by rw [hv]⟩

theorem flatten_map_eq_nil {l : List String}
    {f : String → List RawDeparture} (h : ∀ x ∈ l, f x = []) :
    (l.map f).flatten = [] := by
  induction l with
  | nil => rfl
  | cons x xs ih =>
      rw [List.map_cons, List.flatten_cons, h x (List.mem_cons_self x xs),
        List.nil_append]
      exact ih (fun y hy => h y (List.mem_cons_of_mem _ hy))

theorem fetchData_ok_elim {g : List String → Except String ApiResponse}
    {s : ServerState} {clientID : Option String} {sB : ServerState}
    {sends : List Send} {calls : List (List String)}
    (h : fetchData g s clientID = (.ok (sB, sends), calls)) :
    ∃ ids res, stopIDsToFetch s clientID = some ids ∧ g ids = .ok res
      ∧ fetchDataResume s clientID res = some (sB, sends)
      ∧ calls = [ids] := by
  rw [fetchData.eq_def] at h
  split at h
  · simp at h
  · rename_i ids hids
    split at h
    · simp at h
    · rename_i res hres
      split at h
      · simp at h
      · rename_i out hout
        rw [Prod.mk.injEq] at h
        obtain ⟨h1, h2⟩ := h
        rw [Except.ok.injEq] at h1
        exact ⟨ids, res, hids, hres, h1 ▸ hout, h2.symm⟩

theorem fetchDataResume_some_elim {s : ServerState} {c : String}
    {res : ApiResponse} {sB : ServerState} {sends : List Send}
    (h : fetchDataResume s (some c) res = some (sB, sends)) :
    sB = cacheAfterResume s res
    ∧ (cacheAfterResume s res).wsByClientID.contains c = true
    ∧ ∃ payload,
        getStringifiedDataForClientID (cacheAfterResume s res) c
            = some payload
        ∧ sends = [(c, payload)] := by
  rw [fetchDataResume.eq_def] at h
  simp only [Option.isNone_some, Bool.and_false, Bool.false_eq_true,
    if_false] at h
  split at h
  · rename_i hcon
    rw [Option.map_eq_some'] at h
    obtain ⟨payload, hpay, hout⟩ := h
    rw [Prod.mk.injEq] at hout
    exact ⟨hout.1.symm, hcon, payload, hpay, hout.2.symm⟩
  · cases h

theorem fetchData_eq_of {g : List String → Except String ApiResponse}
    {s : ServerState} {c : Option String} {ids : List String}
    {res : ApiResponse} {out : ServerState × List Send}
    (h1 : stopIDsToFetch s c = some ids) (h2 : g ids = .ok res)
    (h3 : fetchDataResume s c res = some out) :
    fetchData g s c = (.ok out, [ids]) := by
  rw [fetchData.eq_def]
  split
  · rename_i heq
    rw [h1] at heq
    cases heq
  · rename_i ids2 heq
    rw [h1] at heq
    cases heq
    rw [h2]
    show (match fetchDataResume s c res with
      | none => (Except.error "TypeError: cannot send to missing client",
          [ids])
      | some out2 => (Except.ok out2, [ids])) = (Except.ok out, [ids])
    rw [h3]

/-! ### Reachability of the concrete trace states -/

theorem reachable_st1 : Reachable st1 :=
  Reachable.step Reachable.init
    (Step.handshakeEv initialState (.stopList ["A"]) "c1" true
      ⟨by decide, by decide⟩ (by refine ⟨by decide, by decide, by decide⟩))

theorem reachable_st2 : Reachable st2 :=
  Reachable.step reachable_st1 (Step.openEv st1 "c1" 1 (by decide))

theorem reachable_st3 : Reachable st3 :=
  Reachable.step reachable_st2
    (Step.handshakeEv st2 (.stopList ["B"]) "c2" false
      ⟨by decide, by decide⟩ (by refine ⟨by decide, by decide, by decide⟩))

/-! ### Claim C1 -/

/-- C1: the claim states that the payload sent to a connection has one key
per subscribed stop, with an explicit null/absent marker for a
never-fetched stop.  It is false: the in-memory object maps a never-fetched
stop to `undefined` (`departuresByStopID.get` misses), and `JSON.stringify`
omits members whose value is `undefined`, so the key is dropped from the
frame.  Here client `"c1"` subscribes to the single never-fetched stop
`"A"`, the targeted refresh completes, and the frame it sends to `"c1"`
contains zero members — no `"A"` key at all. -/
theorem c1_payload_omits_unfetched_counterexample :
    mapGet stateOneClient.subscribedStopIDsByClientID "c1" = some ["A"]
    ∧ dataForClientID stateOneClient "c1" = some [("A", none)]
    ∧ (fetchData gNoData stateOneClient (some "c1")).1
        = .ok (stateOneClient, [("c1", [])]) :=
  ⟨rfl, rfl, rfl⟩

/-- C1 (amended): the serialized payload for a client contains exactly one
member per subscribed stop identifier that is present in the Departure
Cache, carrying that stop's cached departures; a subscribed stop that has
never been fetched is omitted from the serialized frame altogether
(`JSON.stringify` drops the `undefined`-valued member). -/
theorem c1_payload_members_amended (s : ServerState) (c : String)
    (stops : List String)
    (hreg : mapGet s.subscribedStopIDsByClientID c = some stops) :
    ∃ entries, getStringifiedDataForClientID s c = some entries
      ∧ (∀ st ds, (st, ds) ∈ entries →
          st ∈ stops ∧ mapGet s.departuresByStopID st = some ds)
      ∧ (∀ st ∈ stops, ∀ ds, mapGet s.departuresByStopID st = some ds →
          (st, ds) ∈ entries)
      ∧ (∀ st, mapGet s.departuresByStopID st = none →
          ∀ ds, (st, ds) ∉ entries) := by
  refine ⟨jsonStringifyMembers
    (stops.map (fun st => (st, mapGet s.departuresByStopID st))), ?_, ?_, ?_, ?_⟩
  · rw [getStringifiedDataForClientID, dataForClientID, hreg]
    rfl
  · intro st ds h
    rw [mem_jsonStringifyMembers, mem_map_pair] at h
    exact ⟨h.1, h.2.symm⟩
  · intro st hst ds hds
    rw [mem_jsonStringifyMembers, mem_map_pair]
    exact ⟨hst, hds.symm⟩
  · intro st hnone ds hmem
    rw [mem_jsonStringifyMembers, mem_map_pair, hnone] at hmem
    cases hmem.2

/-- C1 (amended) witness at `stateAfterB`: `"c1"` subscribes to `["A"]`,
only `"B"` is cached, so the payload has no members. -/
theorem c1_payload_members_amended_witness :
    ∃ entries, getStringifiedDataForClientID stateAfterB "c1" = some entries
      ∧ (∀ st ds, (st, ds) ∈ entries →
          st ∈ ["A"] ∧ mapGet stateAfterB.departuresByStopID st = some ds)
      ∧ (∀ st ∈ ["A"], ∀ ds,
          mapGet stateAfterB.departuresByStopID st = some ds →
          (st, ds) ∈ entries)
      ∧ (∀ st, mapGet stateAfterB.departuresByStopID st = none →
          ∀ ds, (st, ds) ∉ entries) :=
  c1_payload_members_amended stateAfterB "c1" ["A"] rfl

/-! ### Claim C2 -/

/-- C2: the claim states that a refresh whose computed stop set is empty
does not call the Fetch Gateway at all.  It is false: `fetchData` awaits
`fetchApiData(stopIDsToFetch)` unconditionally, before any emptiness
check.  Here `"c2"`'s targeted refresh computes the empty set (its only
stop `"A"` is already cached), yet the run performs exactly one gateway
call, with the empty list as argument. -/
theorem c2_empty_set_still_calls_counterexample :
    stopIDsToFetch stateAllCached (some "c2") = some []
    ∧ (fetchData gNoData stateAllCached (some "c2")).2 = [[]]
    ∧ (fetchData gNoData stateAllCached (some "c2")).2 ≠ [] :=
  ⟨rfl, rfl, by decide⟩

/-- C2 (amended): every refresh whose first phase succeeds performs exactly
one Fetch Gateway call, with the computed stop set as argument — even when
that set is empty; on a broadcast-all invocation whose gateway response
contains no departures, the refresh returns right after the call: the
state is unchanged and nothing is re-sent. -/
theorem c2_gateway_always_called_amended :
    (∀ (s : ServerState) (c : Option String) (ids : List String)
        (g : List String → Except String ApiResponse),
      stopIDsToFetch s c = some ids → (fetchData g s c).2 = [ids])
    ∧ (∀ (s : ServerState) (g : List String → Except String ApiResponse)
        (res : ApiResponse),
      g (getAllSubscribedStopIDs s) = .ok res → res.departures = [] →
      fetchData g s none = (.ok (s, []), [getAllSubscribedStopIDs s])) := by
  constructor
  · intro s c ids g hids
    rw [fetchData.eq_def]
    split
    · rename_i heq
      rw [hids] at heq
      cases heq
    · rename_i ids2 heq
      rw [hids] at heq
      cases heq
      cases hge : g ids with
      | error e => rfl
      | ok res =>
          show (match fetchDataResume s c res with
            | none => (Except.error
                "TypeError: cannot send to missing client", [ids])
            | some out2 => (Except.ok out2, [ids])).2 = [ids]
          cases fetchDataResume s c res with
          | none => rfl
          | some out => rfl
  · intro s g res hg hres
    have hr : fetchDataResume s none res = some (s, []) := by
      rw [fetchDataResume.eq_def, hres]
      rfl
    exact fetchData_eq_of rfl hg hr

/-- C2 (amended) witness: the empty-set targeted refresh at
`stateAllCached` makes one gateway call with `[]`; at `initialState` a
broadcast tick with an empty response changes nothing and sends nothing. -/
theorem c2_gateway_always_called_amended_witness :
    (fetchData gNoData stateAllCached (some "c2")).2 = [[]]
    ∧ fetchData gNoData initialState none
        = (.ok (initialState, []), [getAllSubscribedStopIDs initialState]) :=
  ⟨c2_gateway_always_called_amended.1 stateAllCached (some "c2") [] gNoData rfl,
   c2_gateway_always_called_amended.2 initialState gNoData ⟨[]⟩ rfl rfl⟩

/-! ### Claim C3 -/

/-- C3: the claim states that a total gateway failure is caught and logged
at the refresh boundary.  The code has no try/catch anywhere in
`fetchData`: a rejected `fetchApiData` promise rejects `fetchData`'s own
promise, which neither the `open` handler (`fetchData(clientID)`, not
awaited) nor the interval (`setInterval(fetchData, INTERVAL)`) handles.
Evaluated at a failing gateway, both the targeted and the broadcast
refresh terminate with the error escaping the operation. -/
theorem c3_fetch_error_escapes :
    (fetchData (fun _ => .error "fetch failed") stateOneClient
        (some "c1")).1 = .error "fetch failed"
    ∧ (fetchData (fun _ => .error "fetch failed") stateOneClient none).1
        = .error "fetch failed" :=
  ⟨rfl, rfl⟩

/-! ### Claim C4 -/

/-- C4: the claim states that a targeted refresh pending when its target
closes completes without raising an error.  It is false: after
`close` deletes `wsByClientID` and registry entries, the resumed
`fetchData` dereferences `wsByClientID.get(clientID)!` /
`subscribedStopIDsByClientID.get(clientID)!`, both `undefined`, and throws
a TypeError (the `none` outcome) — with a non-empty response and with an
empty one alike. -/
theorem c4_close_during_fetch_throws :
    closeHandler stateOneClient "c1" = initialState
    ∧ fetchDataResume (closeHandler stateOneClient "c1") (some "c1")
        ⟨[rawDepA]⟩ = none
    ∧ fetchDataResume (closeHandler stateOneClient "c1") (some "c1")
        ⟨[]⟩ = none :=
  ⟨rfl, rfl, rfl⟩

/-! ### Claim C5 -/

/-- C5: the claim states that registry keys are always a subset of the
currently-open connections.  The code violates it: the `fetch` handler
writes the Subscription Registry entry *before* calling `server.upgrade`,
and when the upgrade fails it returns an error response without removing
the entry.  The resulting reachable state keeps `"c1"`'s entry forever
although no connection for `"c1"` ever opened (no send-handle, nothing
pending), so the registry key set is not a subset of open connections. -/
theorem c5_failed_upgrade_leaks_registry_entry :
    Reachable leakedState
    ∧ mapGet leakedState.subscribedStopIDsByClientID "c1" = some ["A"]
    ∧ leakedState.wsByClientID = []
    ∧ leakedState.pendingOpen = []
    ∧ (fetchHandler initialState (.stopList ["A"]) "c1" false).2
        = some "Failed to upgrade connection" :=
  ⟨Reachable.step Reachable.init
      (Step.handshakeEv initialState (.stopList ["A"]) "c1" false
        ⟨by decide, by decide⟩ (by refine ⟨by decide, by decide, by decide⟩)),
   rfl, rfl, rfl, rfl⟩

/-! ### Claim C6 -/

/-- C6: the claim states the Refresh Timer is active iff at least one
connection holds a non-empty subscription.  It is false: the `close`
handler clears the timer only when the registry map is empty, and a
registry entry leaked by a failed upgrade (see the `fetch` handler) keeps
the map non-empty, so after the only open connection `"c1"` closes the
timer is still running while zero connections are open. -/
theorem c6_timer_active_without_connections_counterexample :
    Reachable timerLeakState
    ∧ timerLeakState.intervalId = some 1
    ∧ timerLeakState.wsByClientID = []
    ∧ timerLeakState.pendingOpen = [] :=
  ⟨Reachable.step reachable_st3 (Step.closeEv st3 "c1" (by decide)),
   rfl, rfl, rfl⟩

/-- C6 (amended): the Refresh Timer is active only if the Subscription
Registry is non-empty; the `open` handler starts a timer when none is
running and keeps the running one otherwise (so at most one is ever
active, and a connection opening after the timer was cleared starts a
fresh one); the `close` handler keeps the timer exactly when the registry
remains non-empty after the entry removal and clears it otherwise. -/
theorem c6_timer_lifecycle_amended :
    (∀ s : ServerState, Reachable s → s.intervalId.isSome →
      s.subscribedStopIDsByClientID ≠ [])
    ∧ (∀ (s : ServerState) (c : String) (n : Nat), s.intervalId = none →
      (openHandler s c n).intervalId = some n)
    ∧ (∀ (s : ServerState) (c : String) (n k : Nat), s.intervalId = some k →
      (openHandler s c n).intervalId = some k)
    ∧ (∀ (s : ServerState) (c : String),
      (closeHandler s c).intervalId
        = if 0 < (mapDelete s.subscribedStopIDsByClientID c).length
          then s.intervalId else none) := by
  refine ⟨?_, ?_, ?_, ?_⟩
  · intro s hr hsome
    exact (reachable_inv hr).2.2.2 hsome
  · intro s c n h
    rw [openHandler_state]
    simp [h]
  · intro s c n k h
    rw [openHandler_state]
    simp [h]
  · intro s c
    rw [closeHandler_state]

/-- C6 (amended) witness along the concrete trace: the running timer at
`st2` implies a non-empty registry; opening on a cleared timer starts
handle 1; opening on a running timer keeps handle 1; closing `"c1"` at
`st2` empties the registry and clears the timer. -/
theorem c6_timer_lifecycle_amended_witness :
    st2.subscribedStopIDsByClientID ≠ []
    ∧ (openHandler st1 "c1" 1).intervalId = some 1
    ∧ (openHandler st2 "c9" 9).intervalId = some 1
    ∧ (closeHandler st2 "c1").intervalId
        = if 0 < (mapDelete st2.subscribedStopIDsByClientID "c1").length
          then st2.intervalId else none :=
  ⟨c6_timer_lifecycle_amended.1 st2 reachable_st2 (by decide),
   c6_timer_lifecycle_amended.2.1 st1 "c1" 1 rfl,
   c6_timer_lifecycle_amended.2.2.1 st2 "c9" 9 1 rfl,
   c6_timer_lifecycle_amended.2.2.2 st2 "c1"⟩

/-! ### Claim C7 -/

/-- C7: a refresh that completes leaves the Departure Cache entry of any
stop for which the response contains zero departures unchanged; an entry
changes only when the response holds at least one departure for that stop;
and no entry is ever overwritten with the empty list.  Holds: the
cache-update block iterates over the groups of the returned departures, so
only stops occurring in the response are touched, each with its non-empty
group. -/
theorem c7_cache_untouched_without_data (s : ServerState)
    (clientID : Option String) (res : ApiResponse) (sB : ServerState)
    (sends : List Send) (st : String)
    (hres : fetchDataResume s clientID res = some (sB, sends)) :
    (res.departures.filter (fun d => d.stopRefId == st) = [] →
      mapGet sB.departuresByStopID st = mapGet s.departuresByStopID st)
    ∧ (mapGet sB.departuresByStopID st ≠ mapGet s.departuresByStopID st →
      res.departures.filter (fun d => d.stopRefId == st) ≠ [])
    ∧ (mapGet sB.departuresByStopID st = some [] →
      mapGet s.departuresByStopID st = some []) := by
  rcases fetchDataResume_state hres with hss | hss
  · subst hss
    exact ⟨fun _ => rfl, fun hne => absurd rfl hne, fun h => h⟩
  · subst hss
    by_cases hemp : res.departures.isEmpty
    · rw [cacheAfterResume, if_pos hemp]
      exact ⟨fun _ => rfl, fun hne => absurd rfl hne, fun h => h⟩
    · rw [cacheAfterResume, if_neg hemp]
      dsimp only
      refine ⟨?_, ?_, ?_⟩
      · intro hfil
        exact mapGet_mergeDepartures_not_returned _ _ _ hfil
      · intro hne hfil
        exact hne (mapGet_mergeDepartures_not_returned _ _ _ hfil)
      · intro hsome
        exact mapGet_mergeDepartures_ne_some_nil _ _ _ hsome

/-- C7 witness: at `stateOneClient` a targeted refresh whose response only
carries a departure for `"B"` leaves the (absent) cache entry of the
requested stop `"A"` unchanged. -/
theorem c7_cache_untouched_without_data_witness :
    mapGet stateAfterB.departuresByStopID "A"
      = mapGet stateOneClient.departuresByStopID "A" :=
  (c7_cache_untouched_without_data stateOneClient (some "c1") ⟨[rawDepB]⟩
    stateAfterB [("c1", [])] "A" rfl).1 rfl

/-! ### Claim C8 -/

/-- C8: the claim states that two consecutive targeted refreshes with no
cache changes in between produce equal payloads.  It is false for a
deterministic gateway whose answer depends on the requested *set*: the
second call requests only the still-uncached stops and can receive data
the first call did not return, enlarging the second payload.  `gTwoPhase`
answers `["A","B"]` with data for `"A"` only and `["B"]` with data for
`"B"`: the first payload has one member, the second has two. -/
theorem c8_repeat_refresh_differs_counterexample :
    (fetchData gTwoPhase stateTwoStops (some "c1")).1
        = .ok (stateAfterA, [("c1", [("A", [getParsedDeparture rawDepA])])])
    ∧ (fetchData gTwoPhase stateAfterA (some "c1")).1
        = .ok (stateAfterAB,
            [("c1", [("A", [getParsedDeparture rawDepA]),
                     ("B", [getParsedDeparture rawDepB])])])
    ∧ ([("c1", [("A", [getParsedDeparture rawDepA])])] : List Send)
        ≠ [("c1", [("A", [getParsedDeparture rawDepA]),
                   ("B", [getParsedDeparture rawDepB])])] :=
  ⟨rfl, rfl, by decide⟩

/-- C8 (amended): for a per-stop deterministic gateway — the response to a
stop set is the concatenation of fixed per-stop record lists, each record
attributed to its own stop — repeating a completed targeted refresh
returns the same state and the same payload: the second call requests only
stops that returned nothing before, receives nothing for them again,
leaves the cache as it was and re-serializes the same members. -/
theorem c8_repeat_refresh_idempotent_amended
    (perStop : String → List RawDeparture) (s : ServerState) (c : String)
    (sB : ServerState) (sends : List Send) (calls : List (List String))
    (hwf : ∀ st, ∀ d ∈ perStop st, d.stopRefId = st)
    (h1 : fetchData (pointwiseGateway perStop) s (some c)
        = (.ok (sB, sends), calls)) :
    (fetchData (pointwiseGateway perStop) sB (some c)).1
      = .ok (sB, sends) := by
  obtain ⟨ids1, res1, hids1, hg1, hres1, hcalls⟩ := fetchData_ok_elim h1
  have hg1' : Except.ok (⟨(ids1.map perStop).flatten⟩ : ApiResponse)
      = Except.ok res1 := hg1
  have hres1eq : res1 = ⟨(ids1.map perStop).flatten⟩ :=
    (Except.ok.inj hg1').symm
  obtain ⟨hsB, hcon, payload, hpay, hsends⟩ := fetchDataResume_some_elim hres1
  have hids1' : (mapGet s.subscribedStopIDsByClientID c).map
      (fun stops => stops.filter
        (fun stopID => !(mapGet s.departuresByStopID stopID).isSome))
      = some ids1 := hids1
  rw [Option.map_eq_some'] at hids1'
  obtain ⟨stops, hstops, hfilter⟩ := hids1'
  have hreg2 : mapGet sB.subscribedStopIDsByClientID c = some stops := by
    rw [hsB, (cacheAfterResume_frame s res1).1]
    exact hstops
  have hids2 : stopIDsToFetch sB (some c)
      = some (stops.filter
          (fun stopID => !(mapGet sB.departuresByStopID stopID).isSome)) := by
    show (mapGet sB.subscribedStopIDsByClientID c).map
      (fun stops => stops.filter
        (fun stopID => !(mapGet sB.departuresByStopID stopID).isSome))
      = some _
    rw [hreg2]
    rfl
  have hnil : ∀ st ∈ stops.filter
      (fun stopID => !(mapGet sB.departuresByStopID stopID).isSome),
      perStop st = [] := by
    intro st hst
    rw [List.mem_filter] at hst
    obtain ⟨hmem, hnotc⟩ := hst
    have hnone2 : mapGet sB.departuresByStopID st = none := by
      cases hopt : mapGet sB.departuresByStopID st with
      | none => rfl
      | some v =>
          rw [hopt] at hnotc
          simp at hnotc
    have hkey : mapGet (cacheAfterResume s res1).departuresByStopID st
        = none := by
      rw [← hsB]
      exact hnone2
    have hmain : mapGet s.departuresByStopID st = none
        ∧ res1.departures.filter (fun d => d.stopRefId == st) = [] := by
      by_cases hemp : res1.departures.isEmpty
      · rw [cacheAfterResume, if_pos hemp] at hkey
        have hempnil : res1.departures = [] := by
          rwa [List.isEmpty_iff] at hemp
        rw [hempnil]
        exact ⟨hkey, rfl⟩
      · rw [cacheAfterResume, if_neg hemp] at hkey
        dsimp only at hkey
        exact mapGet_mergeDepartures_none hkey
    obtain ⟨hnone1, hnodep⟩ := hmain
    have hmem1 : st ∈ ids1 := by
      rw [← hfilter, List.mem_filter]
      refine ⟨hmem, ?_⟩
      rw [hnone1]
      rfl
    cases hps : perStop st with
    | nil => rfl
    | cons d ds =>
        exfalso
        have hdmem : d ∈ perStop st := by
          rw [hps]
          exact List.mem_cons_self d ds
        have hd : d ∈ res1.departures := by
          rw [hres1eq]
          exact List.mem_flatten.mpr
            ⟨perStop st, List.mem_map.mpr ⟨st, hmem1, rfl⟩, hdmem⟩
        have hdf : d ∈ res1.departures.filter
            (fun d => d.stopRefId == st) := by
          rw [List.mem_filter]
          refine ⟨hd, ?_⟩
          rw [hwf st d hdmem]
          exact beq_self_eq_true st
        rw [hnodep] at hdf
        cases hdf
  have hres2 : pointwiseGateway perStop
      (stops.filter
        (fun stopID => !(mapGet sB.departuresByStopID stopID).isSome))
      = .ok ⟨[]⟩ := by
    show Except.ok (⟨((stops.filter
      (fun stopID => !(mapGet sB.departuresByStopID stopID).isSome)).map
        perStop).flatten⟩ : ApiResponse) = Except.ok ⟨[]⟩
    rw [flatten_map_eq_nil hnil]
  have hws2 : sB.wsByClientID.contains c = true := by
    rw [hsB]
    exact (cacheAfterResume_frame s res1).2.1 ▸ hcon
  have hcache2 : cacheAfterResume sB ⟨[]⟩ = sB := by
    rw [cacheAfterResume]
    rfl
  have hpay2 : getStringifiedDataForClientID sB c = some payload := by
    rw [hsB]
    exact hpay
  have hresume2 : fetchDataResume sB (some c) ⟨[]⟩ = some (sB, sends) := by
    rw [fetchDataResume.eq_def]
    simp only [Option.isNone_some, Bool.and_false, Bool.false_eq_true,
      if_false]
    rw [hcache2, if_pos hws2, hpay2, hsends]
    rfl
  rw [fetchData_eq_of hids2 hres2 hresume2]

/-- C8 (amended) witness: with the per-stop gateway `perStopW` (data for
`"A"` only), the completed first refresh at `stateTwoStops` produced
`stateAfterA` and one payload member; repeating it returns the same state
and payload. -/
theorem c8_repeat_refresh_idempotent_amended_witness :
    (fetchData (pointwiseGateway perStopW) stateAfterA (some "c1")).1
      = .ok (stateAfterA, [("c1", [("A", [getParsedDeparture rawDepA])])]) :=
  c8_repeat_refresh_idempotent_amended perStopW stateTwoStops "c1"
    stateAfterA [("c1", [("A", [getParsedDeparture rawDepA])])] [["A", "B"]]
    (by
      intro st d hd
      by_cases h : st = "A"
      · subst h
        rw [perStopW, if_pos rfl] at hd
        rw [List.mem_singleton] at hd
        rw [hd]
        rfl
      · rw [perStopW, if_neg h] at hd
        cases hd)
    rfl

/-! ### Claim C9 -/

/-- C9: handling a well-formed subscribe message replaces the connection's
Subscription Registry entry wholesale with the new stop list — the lookup
for that connection afterwards yields exactly the new list, other
connections' entries are untouched — and performs no implicit refresh: the
handler issues no close, no Fetch Gateway call and no send, and leaves the
send-handles, the Departure Cache and the timer unchanged. -/
theorem c9_subscribe_replaces_wholesale (s : ServerState) (clientID : String)
    (stops : List String) :
    (messageHandler s clientID (.subscribeList stops)).1.subscribedStopIDsByClientID
        = mapSet s.subscribedStopIDsByClientID clientID stops
    ∧ (∀ c', mapGet (messageHandler s clientID
          (.subscribeList stops)).1.subscribedStopIDsByClientID c'
        = if c' = clientID then some stops
          else mapGet s.subscribedStopIDsByClientID c')
    ∧ (messageHandler s clientID (.subscribeList stops)).1.wsByClientID
        = s.wsByClientID
    ∧ (messageHandler s clientID (.subscribeList stops)).1.departuresByStopID
        = s.departuresByStopID
    ∧ (messageHandler s clientID (.subscribeList stops)).1.intervalId
        = s.intervalId
    ∧ (messageHandler s clientID (.subscribeList stops)).2.1 = none
    ∧ (messageHandler s clientID (.subscribeList stops)).2.2.1 = []
    ∧ (messageHandler s clientID (.subscribeList stops)).2.2.2 = [] := by
  refine ⟨rfl, ?_, rfl, rfl, rfl, rfl, rfl, rfl⟩
  intro c'
  exact mapGet_mapSet s.subscribedStopIDsByClientID clientID c' stops

/-! ### Claim C10 -/

/-- C10: at every reachable state, every connection with a stored
send-handle has a Subscription Registry entry, so the registry lookups
performed while composing a connected client's payload
(`subscribedStopIDsByClientID.get(clientID)!` inside
`getStringifiedDataForClientID`) never find the entry absent.  Holds: the
handshake registers the subscription before the upgrade stores any handle,
`message` only overwrites, and `close` deletes handle and entry
together. -/
theorem c10_ws_always_has_registry_entry (s : ServerState) (c : String)
    (hreach : Reachable s) (hws : c ∈ s.wsByClientID) :
    (mapGet s.subscribedStopIDsByClientID c).isSome
    ∧ (getStringifiedDataForClientID s c).isSome := by
  have hreg := (reachable_inv hreach).2.2.1 c hws
  refine ⟨hreg, ?_⟩
  rw [getStringifiedDataForClientID, dataForClientID]
  cases hopt : mapGet s.subscribedStopIDsByClientID c with
  | none =>
      rw [hopt] at hreg
      cases hreg
  | some stops => rfl

/-- C10 witness at the reachable state `st2` (client `"c1"` opened after a
valid handshake): the payload composition for `"c1"` finds its registry
entry. -/
theorem c10_ws_always_has_registry_entry_witness :
    (mapGet st2.subscribedStopIDsByClientID "c1").isSome
    ∧ (getStringifiedDataForClientID st2 "c1").isSome :=
  c10_ws_always_has_registry_entry st2 "c1" reachable_st2 (by decide)
